import Mathlib

/-!
# Usage Quota & Billing-Cycle Reconciliation Engine — verification

Shallow embedding of the quota engine of `paylens-backend`:

* `UserService.incrementUsageCount`, `UserService.resetMonthlyUsage`,
  `UserService.checkAndResetMonthlyUsage`, `UserService.getMonthlyLimit`
  (src/unnamed/part_005, the full engine variant);
* `UsageController.incrementUsage` (the duplicate-request guard and the
  status mapping) and `UsageController.getUsage`
  (src/src/controllers/usage.controller.ts);
* `SchedulerService.performMonthlyReset` (src/src/services/scheduler.service.ts).

Modelling choices:

* Timestamps are `(month, day, msOfDay)` with `month` an absolute month
  index, `day` a 1-based day of month and `msOfDay` the time inside the day.
  `DATE_TRUNC('month', t)` and the JS `setDate(1); setHours(0,0,0,0)`
  combination both map to `truncMonth`. Comparisons are lexicographic,
  matching both SQL timestamp ordering and JS `Date` ordering.
* The users table is a `List User`. A SQL
  `UPDATE … WHERE p … RETURNING *` is `updateWhere`: it rewrites every row
  satisfying the predicate and returns the list of updated rows.
  Columns that none of the verified operations read or branch on
  (email, password, role, flags, created/updated timestamps) are omitted.
* The service reports errors as the fixed message strings of the source;
  they are carried as an inductive `IncError` together with the exact
  message text (`IncError.message`), and the controller's
  `error.includes('not found')` / `error.includes('limit exceeded')`
  dispatch is resolved on that fixed message set.
* The controller's in-memory deduplication cache `recentRequests` is a JS
  `Map`, i.e. keyed storage: it is embedded as the function type
  `DedupeMap`; `Date.now()` values are natural-number milliseconds, and the
  JS subtraction `now - last` is integer subtraction.
-/

/-- A point in time: absolute month index, 1-based day of month, and
milliseconds within the day. -/
structure Timestamp where
  month : Nat
  day : Nat
  msOfDay : Nat
deriving DecidableEq, Repr

/-- Strict order on timestamps (lexicographic), the order used by the SQL
comparison `billing_period_start < DATE_TRUNC('month', NOW())` and by the
JS `Date` comparison `currentMonth > lastResetMonth`. -/
def tsLt (a b : Timestamp) : Bool :=
  a.month < b.month ||
    (a.month == b.month && (a.day < b.day ||
      (a.day == b.day && a.msOfDay < b.msOfDay)))

/-- `DATE_TRUNC('month', t)`: the first instant of `t`'s calendar month.
Also the JS `d.setDate(1); d.setHours(0,0,0,0)` normalisation. -/
def truncMonth (t : Timestamp) : Timestamp :=
  { month := t.month, day := 1, msOfDay := 0 }

/-- One row of the `users` table (the columns the engine reads or writes). -/
structure User where
  id : String
  subscriptionTier : String
  monthlyLimit : Int
  usageCount : Int
  billingPeriodStart : Timestamp
  lastUsageReset : Option Timestamp
deriving DecidableEq, Repr

/-- The users table. -/
abbrev Store := List User

/-- `SELECT * FROM users WHERE id = $1` (first matching row or none),
`UserService.findById`. -/
def findById (s : Store) (uid : String) : Option User :=
  s.find? (fun u => u.id == uid)

/-- `UPDATE users SET … WHERE p RETURNING *`: the table after the update
and the list of updated rows. -/
def updateWhere (s : Store) (p : User → Bool) (f : User → User) :
    Store × List User :=
  (s.map (fun u => if p u then f u else u), (s.filter p).map f)

/-- The `WHERE` predicate of the conditional increment:
`subscription_tier = 'enterprise' OR usage_count < monthly_limit`. -/
def incrCond (u : User) : Bool :=
  u.subscriptionTier == "enterprise" || u.usageCount < u.monthlyLimit

/-- The `SET` clause of the conditional increment:
`usage_count = usage_count + 1`. -/
def incrRow (u : User) : User :=
  { u with usageCount := u.usageCount + 1 }

/-- The `SET` clause of a monthly reset: `usage_count = 0`,
`last_usage_reset = NOW()`, `billing_period_start = DATE_TRUNC('month', NOW())`. -/
def resetRow (now : Timestamp) (u : User) : User :=
  { u with usageCount := 0,
           lastUsageReset := some now,
           billingPeriodStart := truncMonth now }

/-- `UserService.resetMonthlyUsage`: with a user id, reset that user
unconditionally; without one (the sweep form), reset every user with
`billing_period_start < DATE_TRUNC('month', NOW())`. Returns the new table
and `resetCount` (the number of returned rows). -/
def resetMonthlyUsage (s : Store) (userId : Option String) (now : Timestamp) :
    Store × Nat :=
  match userId with
  | some uid =>
      let r := updateWhere s (fun u => u.id == uid) (resetRow now)
      (r.1, r.2.length)
  | none =>
      let r := updateWhere s (fun u => tsLt u.billingPeriodStart (truncMonth now))
        (resetRow now)
      (r.1, r.2.length)

/-- Outcome of `UserService.checkAndResetMonthlyUsage`, together with the
resulting table. -/
structure CheckResetOut where
  wasReset : Bool
  user : Option User
  store : Store
deriving DecidableEq, Repr

/-- `UserService.checkAndResetMonthlyUsage`: fetch the user; compare the
first instant of the current month against the month-truncated
`billingPeriodStart`; when strictly newer, reset the user and refetch. -/
def checkAndResetMonthlyUsage (s : Store) (uid : String) (now : Timestamp) :
    CheckResetOut :=
  match findById s uid with
  | none => ⟨false, none, s⟩
  | some u =>
      if tsLt (truncMonth u.billingPeriodStart) (truncMonth now) then
        let r := resetMonthlyUsage s (some uid) now
        if r.2 > 0 then ⟨true, findById r.1 uid, r.1⟩
        else ⟨false, some u, r.1⟩
      else ⟨false, some u, s⟩

/-- The error cases of `UserService.incrementUsageCount`. -/
inductive IncError
  | userNotFound
  | enterpriseIncrementFailed
  | usageLimitExceeded (current limit : Int)
deriving DecidableEq, Repr

/-- The exact message strings of the source. -/
def IncError.message : IncError → String
  | .userNotFound => "User not found"
  | .enterpriseIncrementFailed => "Enterprise user increment failed"
  | .usageLimitExceeded current limit =>
      "Usage limit exceeded. Current: " ++ toString current ++
        ", Limit: " ++ toString limit

/-- Outcome of `UserService.incrementUsageCount`, together with the
resulting table. -/
structure IncOut where
  user : Option User
  canIncrement : Bool
  error : Option IncError
  wasReset : Option Bool
  store : Store
deriving DecidableEq, Repr

/-- `UserService.incrementUsageCount`: run the monthly-reset check first,
then attempt the single conditional `UPDATE`; on an empty result, re-read
the user to build the failure payload. -/
def incrementUsageCount (s : Store) (uid : String) (now : Timestamp) : IncOut :=
  let resetCheck := checkAndResetMonthlyUsage s uid now
  match resetCheck.user with
  | none => ⟨none, false, some .userNotFound, none, resetCheck.store⟩
  | some _ =>
      let r := updateWhere resetCheck.store (fun u => u.id == uid && incrCond u)
        incrRow
      match r.2 with
      | [] =>
          match findById r.1 uid with
          | none => ⟨none, false, some .userNotFound, none, r.1⟩
          | some userCheck =>
              if userCheck.subscriptionTier == "enterprise" then
                ⟨none, false, some .enterpriseIncrementFailed, none, r.1⟩
              else
                ⟨some userCheck, false,
                  some (.usageLimitExceeded userCheck.usageCount
                    userCheck.monthlyLimit),
                  some resetCheck.wasReset, r.1⟩
      | row :: _ => ⟨some row, true, none, some resetCheck.wasReset, r.1⟩

/-- `UserService.getMonthlyLimit`: tier table, defaulting to 5. -/
def getMonthlyLimit (tier : String) : Int :=
  if tier == "free" then 5
  else if tier == "pro" then 100
  else if tier == "business" then 1000
  else if tier == "enterprise" then -1
  else 5

/-! ## UsageController (src/src/controllers/usage.controller.ts) -/

/-- `REQUEST_DEDUPE_WINDOW = 5000` ms. -/
def REQUEST_DEDUPE_WINDOW : Nat := 5000

/-- The in-memory `recentRequests` map: user id to the `Date.now()` of the
last accepted attempt. A JS `Map` is keyed storage, so it is embedded as a
function from keys to optional values. -/
def DedupeMap := String → Option Nat

/-- The initial `new Map()`: no entries. -/
def emptyDedupe : DedupeMap := fun _ => none

/-- `Map.get` on `recentRequests`. -/
def mapGet (m : DedupeMap) (k : String) : Option Nat := m k

/-- `Map.set` on `recentRequests`. -/
def mapSet (m : DedupeMap) (k : String) (v : Nat) : DedupeMap :=
  fun k' => if k' == k then some v else m k'

/-- `recentRequests.delete` applied to every entry with
`now - timestamp > REQUEST_DEDUPE_WINDOW * 2` (the cleanup loop). -/
def mapCleanup (m : DedupeMap) (now : Nat) : DedupeMap :=
  fun k' =>
    match m k' with
    | some t =>
        if (now : Int) - (t : Int) > (REQUEST_DEDUPE_WINDOW : Int) * 2 then none
        else some t
    | none => none

/-- The deduplication block of `UsageController.incrementUsage`: reject when
an entry exists and `now - lastRequestTime < REQUEST_DEDUPE_WINDOW`
(returning before any write); otherwise `set(userId, now)` and then run the
cleanup loop. Returns whether the request proceeds and the map afterwards. -/
def dedupeGate (m : DedupeMap) (uid : String) (now : Nat) :
    Bool × DedupeMap :=
  let blocked : Bool :=
    match mapGet m uid with
    | some lastRequestTime =>
        decide ((now : Int) - (lastRequestTime : Int) < (REQUEST_DEDUPE_WINDOW : Int))
    | none => false
  if blocked then (false, m)
  else (true, mapCleanup (mapSet m uid now) now)

/-- The HTTP responses of `UsageController.incrementUsage` (authenticated
requests; transport failures out of scope). -/
inductive IncResponse
  | tooFrequent
  | failed (status : Nat) (code : String) (currentUsage limit : Option Int)
  | incremented (usageCount monthlyLimit : Int)
deriving DecidableEq, Repr

/-- `UsageController.incrementUsage`: duplicate-request guard, then the
service increment; failures are mapped to a status code by matching the
error message (`includes('not found')` → 404, `includes('limit exceeded')`
→ 429, else 400 — resolved here on the fixed message set of `IncError`). -/
def controllerIncrementUsage (m : DedupeMap) (s : Store) (uid : String)
    (nowMs : Nat) (now : Timestamp) : IncResponse × DedupeMap × Store :=
  let gate := dedupeGate m uid nowMs
  if gate.1 then
    let result := incrementUsageCount s uid now
    if result.canIncrement then
      match result.user with
      | some u => (.incremented u.usageCount u.monthlyLimit, gate.2, result.store)
      | none => (.failed 400 "INCREMENT_FAILED" none none, gate.2, result.store)
    else
      match result.error with
      | some .userNotFound =>
          (.failed 404 "INCREMENT_FAILED"
            (result.user.map User.usageCount) (result.user.map User.monthlyLimit),
            gate.2, result.store)
      | some (.usageLimitExceeded _ _) =>
          (.failed 429 "USAGE_LIMIT_EXCEEDED"
            (result.user.map User.usageCount) (result.user.map User.monthlyLimit),
            gate.2, result.store)
      | _ =>
          (.failed 400 "INCREMENT_FAILED"
            (result.user.map User.usageCount) (result.user.map User.monthlyLimit),
            gate.2, result.store)
  else (.tooFrequent, m, s)

/-- The HTTP responses of `UsageController.getUsage`. -/
inductive UsageView
  | notFound
  | usageData (usageCount monthlyLimit : Int) (tier : String) (pct : Int)
deriving DecidableEq, Repr

/-- `Math.round((usageCount / monthlyLimit) * 100)` for `monthlyLimit > 0`,
with the JS floats read as exact rationals (round half toward +∞). -/
def usagePercentage (usageCount monthlyLimit : Int) : Int :=
  if monthlyLimit > 0 then (200 * usageCount + monthlyLimit) / (2 * monthlyLimit)
  else 0

/-- `UsageController.getUsage`: a plain `findById` read — no reconciliation
step appears on this path. -/
def getUsage (s : Store) (uid : String) : UsageView :=
  match findById s uid with
  | none => .notFound
  | some u =>
      .usageData u.usageCount u.monthlyLimit u.subscriptionTier
        (usagePercentage u.usageCount u.monthlyLimit)

/-! ## SchedulerService (src/src/services/scheduler.service.ts) -/

/-- The `setInterval` period of `startMonthlyReset`: `24 * 60 * 60 * 1000`. -/
def monthlyResetIntervalMs : Nat := 24 * 60 * 60 * 1000

/-- The firing instants of the scheduler: once immediately on start, then
every 24 hours (`startMonthlyReset`). -/
def fireTime (startMs : Nat) (k : Nat) : Nat :=
  startMs + k * monthlyResetIntervalMs

/-- `SchedulerService.performMonthlyReset`: return without touching the
store unless `now.getDate() === 1`; on the 1st, run the sweep form of
`resetMonthlyUsage`. Returns the store and `some resetCount` when the sweep
ran. -/
def performMonthlyReset (s : Store) (now : Timestamp) : Store × Option Nat :=
  if now.day ≠ 1 then (s, none)
  else
    let r := resetMonthlyUsage s none now
    (r.1, some r.2)

/-! ## Driver for repeated increment attempts

Each `incrementUsageCount` is one atomic conditional write, so any
interleaving of N concurrent attempts against one account is some
serialisation of N identical atomic steps; `runAttempts` is that
serialisation. It returns the final store, the number of accepted attempts
and the number of attempts rejected with the usage-limit-exceeded error. -/

def runAttempts (uid : String) (now : Timestamp) : Nat → Store → Store × Nat × Nat
  | 0, s => (s, 0, 0)
  | n + 1, s =>
      let out := incrementUsageCount s uid now
      let rest := runAttempts uid now n out.store
      (rest.1,
       (if out.canIncrement then 1 else 0) + rest.2.1,
       (if (out.error.map (fun e =>
          match e with
          | .usageLimitExceeded _ _ => true
          | _ => false)).getD false then 1 else 0) + rest.2.2)

/-! ## Basic lemmas about the embedded operations -/

lemma findById_single (u : User) : findById [u] u.id = some u := by
  simp [findById]

lemma resetRow_id (u : User) (now : Timestamp) : (resetRow now u).id = u.id := rfl

lemma resetRow_tier (u : User) (now : Timestamp) :
    (resetRow now u).subscriptionTier = u.subscriptionTier := rfl

lemma resetRow_not_due (u : User) (now : Timestamp) :
    tsLt (truncMonth (resetRow now u).billingPeriodStart) (truncMonth now) = false := by
  simp [resetRow, truncMonth, tsLt]

lemma incrRow_usage (v : User) : (incrRow v).usageCount = v.usageCount + 1 := rfl

lemma usage_set_eq (v : User) {a b : Int} (h : a = b) :
    ({ v with usageCount := a } : User) = { v with usageCount := b } := by
  rw [h]

/-- Month truncation turns the timestamp order into the order of month
indices. -/
lemma tsLt_truncMonth_both (a b : Timestamp) :
    tsLt (truncMonth a) (truncMonth b) = decide (a.month < b.month) := by
  simp [tsLt, truncMonth]

/-- For a valid calendar date (`1 ≤ day`), comparing against a month start
is the same with or without truncating the left side — the sweep's
`billing_period_start < DATE_TRUNC('month', NOW())` agrees with the
month-truncated policy. -/
lemma tsLt_truncMonth_left (a b : Timestamp) (ha : 1 ≤ a.day) :
    tsLt a (truncMonth b) = tsLt (truncMonth a) (truncMonth b) := by
  have h1 : ¬ a.day < 1 := by omega
  simp [tsLt, truncMonth, h1]

lemma checkReset_single_current (u : User) (now : Timestamp)
    (hnd : tsLt (truncMonth u.billingPeriodStart) (truncMonth now) = false) :
    checkAndResetMonthlyUsage [u] u.id now = ⟨false, some u, [u]⟩ := by
  simp [checkAndResetMonthlyUsage, findById, hnd]

lemma checkReset_single_due (u : User) (now : Timestamp)
    (hd : tsLt (truncMonth u.billingPeriodStart) (truncMonth now) = true) :
    checkAndResetMonthlyUsage [u] u.id now =
      ⟨true, some (resetRow now u), [resetRow now u]⟩ := by
  simp [checkAndResetMonthlyUsage, findById, hd, resetMonthlyUsage, updateWhere,
    resetRow]

lemma incr_single_metered (u : User) (now : Timestamp)
    (hm : u.subscriptionTier ≠ "enterprise")
    (hnd : tsLt (truncMonth u.billingPeriodStart) (truncMonth now) = false) :
    incrementUsageCount [u] u.id now =
      if u.usageCount < u.monthlyLimit then
        ⟨some (incrRow u), true, none, some false, [incrRow u]⟩
      else
        ⟨some u, false, some (.usageLimitExceeded u.usageCount u.monthlyLimit),
          some false, [u]⟩ := by
  rw [incrementUsageCount, checkReset_single_current u now hnd]
  by_cases hlt : u.usageCount < u.monthlyLimit
  · simp [updateWhere, incrCond, hm, hlt]
  · simp [updateWhere, incrCond, hm, hlt, findById]

lemma incr_single_enterprise (u : User) (now : Timestamp)
    (hm : u.subscriptionTier = "enterprise")
    (hnd : tsLt (truncMonth u.billingPeriodStart) (truncMonth now) = false) :
    incrementUsageCount [u] u.id now =
      ⟨some (incrRow u), true, none, some false, [incrRow u]⟩ := by
  rw [incrementUsageCount, checkReset_single_current u now hnd]
  simp [updateWhere, incrCond, hm]

lemma incr_single_due (u : User) (now : Timestamp)
    (hd : tsLt (truncMonth u.billingPeriodStart) (truncMonth now) = true) :
    incrementUsageCount [u] u.id now =
      if incrCond (resetRow now u) then
        ⟨some (incrRow (resetRow now u)), true, none, some true,
          [incrRow (resetRow now u)]⟩
      else
        ⟨some (resetRow now u), false,
          some (.usageLimitExceeded 0 u.monthlyLimit), some true,
          [resetRow now u]⟩ := by
  rw [incrementUsageCount, checkReset_single_due u now hd]
  by_cases hc : incrCond (resetRow now u)
  · simp [updateWhere, hc, resetRow_id]
  · have hm : ¬ (resetRow now u).subscriptionTier = "enterprise" := by
      intro he
      simp [incrCond, he] at hc
    have h0 : (resetRow now u).usageCount = 0 := rfl
    have hl : (resetRow now u).monthlyLimit = u.monthlyLimit := rfl
    simp [updateWhere, hc, resetRow_id, findById, hm, h0, hl]

lemma runAttempts_single (now : Timestamp) (n : Nat) :
    ∀ v : User, v.subscriptionTier ≠ "enterprise" →
    tsLt (truncMonth v.billingPeriodStart) (truncMonth now) = false →
    v.usageCount ≤ v.monthlyLimit →
    runAttempts v.id now n [v] =
      ([{ v with usageCount := min (v.usageCount + n) v.monthlyLimit }],
       min n (v.monthlyLimit - v.usageCount).toNat,
       n - min n (v.monthlyLimit - v.usageCount).toNat) := by
  induction n with
  | zero =>
      intro v hm hnd hle
      rw [runAttempts]
      have h1 : min (v.usageCount + (0 : Nat)) v.monthlyLimit = v.usageCount := by
        omega
      rw [usage_set_eq v h1]
      simp
  | succ n ih =>
      intro v hm hnd hle
      rw [runAttempts, incr_single_metered v now hm hnd]
      have e_id : (incrRow v).id = v.id := rfl
      have e_tier : (incrRow v).subscriptionTier = v.subscriptionTier := rfl
      have e_ml : (incrRow v).monthlyLimit = v.monthlyLimit := rfl
      have e_usage : (incrRow v).usageCount = v.usageCount + 1 := rfl
      have e_bps : (incrRow v).billingPeriodStart = v.billingPeriodStart := rfl
      have e_last : (incrRow v).lastUsageReset = v.lastUsageReset := rfl
      by_cases hlt : v.usageCount < v.monthlyLimit
      · simp only [if_pos hlt]
        have hih := ih (incrRow v) (by rw [e_tier]; exact hm)
          (by rw [e_bps]; exact hnd) (by rw [e_usage]; omega)
        rw [e_id] at hih
        simp only [hih, e_id, e_tier, e_ml, e_usage, e_bps, e_last, if_true,
          Option.map_none', Option.getD_none, Bool.false_eq_true, if_false,
          Prod.mk.injEq, List.cons.injEq, User.mk.injEq, and_true, true_and]
        repeat' apply And.intro
        all_goals first | rfl | omega
      · simp only [if_neg hlt]
        have hih := ih v hm hnd hle
        simp only [hih, Option.map_some', Option.getD_some, Bool.false_eq_true,
          Prod.mk.injEq, List.cons.injEq, User.mk.injEq, and_true, true_and,
          if_true, if_false]
        repeat' apply And.intro
        all_goals first | rfl | omega

/-- The account state the conditional `UPDATE` evaluates its predicate
against: the stored row after the lazy monthly reset that
`incrementUsageCount` runs first. -/
def preUpdateUser (u : User) (now : Timestamp) : User :=
  if tsLt (truncMonth u.billingPeriodStart) (truncMonth now) then resetRow now u
  else u

/-- **C1**: for a metered-tier account, an increment is admitted exactly
when `usageCount < monthlyLimit` held immediately before the conditional
update (that is, on the possibly-reset row the `UPDATE` sees), and an
admitted increment raises `usageCount` by exactly 1, so
`usageCount ≤ monthlyLimit` holds immediately after it. -/
theorem metered_increment_respects_limit (u : User) (now : Timestamp)
    (hm : u.subscriptionTier ≠ "enterprise") :
    ((incrementUsageCount [u] u.id now).canIncrement = true ↔
       (preUpdateUser u now).usageCount < (preUpdateUser u now).monthlyLimit) ∧
    ((incrementUsageCount [u] u.id now).canIncrement = true →
       (incrementUsageCount [u] u.id now).store = [incrRow (preUpdateUser u now)] ∧
       (incrRow (preUpdateUser u now)).usageCount =
         (preUpdateUser u now).usageCount + 1 ∧
       (incrRow (preUpdateUser u now)).usageCount ≤
         (preUpdateUser u now).monthlyLimit) := by
  unfold preUpdateUser
  cases hdue : tsLt (truncMonth u.billingPeriodStart) (truncMonth now) with
  | false =>
      rw [incr_single_metered u now hm hdue]
      by_cases hlt : u.usageCount < u.monthlyLimit
      · constructor
        · simp [hlt]
        · intro _
          refine ⟨by simp [hlt], by simp [incrRow_usage], ?_⟩
          simp only [incrRow_usage, Bool.false_eq_true, if_false]
          omega
      · constructor
        · simp [hlt]
        · intro hcan
          rw [if_neg hlt] at hcan
          simp at hcan
  | true =>
      rw [incr_single_due u now hdue]
      have hmr : (resetRow now u).subscriptionTier ≠ "enterprise" := by
        rw [resetRow_tier]; exact hm
      by_cases hc : incrCond (resetRow now u)
      · have hlt : (resetRow now u).usageCount < (resetRow now u).monthlyLimit := by
          have h2 := hc
          simp only [incrCond, Bool.or_eq_true, beq_iff_eq, decide_eq_true_eq] at h2
          rcases h2 with h | h
          · exact absurd h hmr
          · exact h
        constructor
        · simp [hc, hlt]
        · intro _
          refine ⟨by simp [hc], by simp [incrRow_usage], ?_⟩
          simp only [incrRow_usage, if_true]
          omega
      · have hnlt : ¬ (resetRow now u).usageCount < (resetRow now u).monthlyLimit :=
          fun h => hc (by simp [incrCond, h])
        constructor
        · simp [hc, hnlt]
        · intro hcan
          rw [if_neg hc] at hcan
          simp at hcan

/-- Closed instance of `metered_increment_respects_limit` at a free-tier
account with usage 3 of 5 inside its billing month. -/
theorem metered_increment_respects_limit_witness :
    (incrementUsageCount [User.mk "u1" "free" 5 3 ⟨10, 1, 0⟩ none]
        (User.mk "u1" "free" 5 3 ⟨10, 1, 0⟩ none).id ⟨10, 15, 0⟩).canIncrement =
      true ∧
    (incrementUsageCount [User.mk "u1" "free" 5 3 ⟨10, 1, 0⟩ none]
        (User.mk "u1" "free" 5 3 ⟨10, 1, 0⟩ none).id ⟨10, 15, 0⟩).store =
      [incrRow (preUpdateUser (User.mk "u1" "free" 5 3 ⟨10, 1, 0⟩ none) ⟨10, 15, 0⟩)] ∧
    (incrRow (preUpdateUser (User.mk "u1" "free" 5 3 ⟨10, 1, 0⟩ none) ⟨10, 15, 0⟩)).usageCount =
      (preUpdateUser (User.mk "u1" "free" 5 3 ⟨10, 1, 0⟩ none) ⟨10, 15, 0⟩).usageCount + 1 ∧
    (incrRow (preUpdateUser (User.mk "u1" "free" 5 3 ⟨10, 1, 0⟩ none) ⟨10, 15, 0⟩)).usageCount ≤
      (preUpdateUser (User.mk "u1" "free" 5 3 ⟨10, 1, 0⟩ none) ⟨10, 15, 0⟩).monthlyLimit :=
  have h := metered_increment_respects_limit
    (User.mk "u1" "free" 5 3 ⟨10, 1, 0⟩ none) ⟨10, 15, 0⟩ (by decide)
  have hcan : (incrementUsageCount [User.mk "u1" "free" 5 3 ⟨10, 1, 0⟩ none]
      (User.mk "u1" "free" 5 3 ⟨10, 1, 0⟩ none).id ⟨10, 15, 0⟩).canIncrement = true :=
    h.1.mpr (by decide)
  ⟨hcan, (h.2 hcan).1, (h.2 hcan).2.1, (h.2 hcan).2.2⟩

/-- **C2**: each attempt is one atomic conditional write, so any
interleaving of N simultaneous attempts is a serialisation of N identical
atomic steps. Against one metered account inside its billing month with
K = `monthlyLimit - usageCount` remaining slots and K < N, exactly K
attempts are accepted, the other N − K are rejected with the
usage-limit-exceeded error, and the final `usageCount` equals
`monthlyLimit`. -/
theorem atomic_admission_exact_successes (u : User) (now : Timestamp) (N : Nat)
    (hm : u.subscriptionTier ≠ "enterprise")
    (hnd : tsLt (truncMonth u.billingPeriodStart) (truncMonth now) = false)
    (hle : u.usageCount ≤ u.monthlyLimit)
    (hK : (u.monthlyLimit - u.usageCount).toNat < N) :
    runAttempts u.id now N [u] =
      ([{ u with usageCount := u.monthlyLimit }],
       (u.monthlyLimit - u.usageCount).toNat,
       N - (u.monthlyLimit - u.usageCount).toNat) := by
  rw [runAttempts_single now N u hm hnd hle]
  have h1 : min (u.usageCount + (N : Int)) u.monthlyLimit = u.monthlyLimit := by
    omega
  have h2 : min N (u.monthlyLimit - u.usageCount).toNat =
      (u.monthlyLimit - u.usageCount).toNat := by
    omega
  rw [usage_set_eq u h1, h2]

/-- Closed instance of `atomic_admission_exact_successes`: limit 5, usage 3,
10 attempts — exactly 2 accepted, 8 rejected, final count 5 (the spec's
worked example). -/
theorem atomic_admission_exact_successes_witness :
    (User.mk "u1" "free" 5 3 ⟨10, 1, 0⟩ none).subscriptionTier ≠ "enterprise" ∧
    tsLt (truncMonth (User.mk "u1" "free" 5 3 ⟨10, 1, 0⟩ none).billingPeriodStart)
      (truncMonth ⟨10, 15, 0⟩) = false ∧
    (User.mk "u1" "free" 5 3 ⟨10, 1, 0⟩ none).usageCount ≤
      (User.mk "u1" "free" 5 3 ⟨10, 1, 0⟩ none).monthlyLimit ∧
    ((User.mk "u1" "free" 5 3 ⟨10, 1, 0⟩ none).monthlyLimit -
      (User.mk "u1" "free" 5 3 ⟨10, 1, 0⟩ none).usageCount).toNat < 10 ∧
    runAttempts (User.mk "u1" "free" 5 3 ⟨10, 1, 0⟩ none).id ⟨10, 15, 0⟩ 10
        [User.mk "u1" "free" 5 3 ⟨10, 1, 0⟩ none] =
      ([{ User.mk "u1" "free" 5 3 ⟨10, 1, 0⟩ none with usageCount :=
          (User.mk "u1" "free" 5 3 ⟨10, 1, 0⟩ none).monthlyLimit }],
       ((User.mk "u1" "free" 5 3 ⟨10, 1, 0⟩ none).monthlyLimit -
         (User.mk "u1" "free" 5 3 ⟨10, 1, 0⟩ none).usageCount).toNat,
       10 - ((User.mk "u1" "free" 5 3 ⟨10, 1, 0⟩ none).monthlyLimit -
         (User.mk "u1" "free" 5 3 ⟨10, 1, 0⟩ none).usageCount).toNat) :=
  ⟨by decide, by decide, by decide, by decide,
    atomic_admission_exact_successes (User.mk "u1" "free" 5 3 ⟨10, 1, 0⟩ none)
      ⟨10, 15, 0⟩ 10 (by decide) (by decide) (by decide) (by decide)⟩

/-- **C3**: the reconciler treats an account as due exactly when the first
instant of the current calendar month is strictly after the month-truncated
`billingPeriodStart`; on a due account it sets `usageCount = 0`,
`billingPeriodStart` to the first instant of the current month and
`lastUsageReset = now`; and the id-less sweep applies that same policy and
effect to every row (its raw `billing_period_start < DATE_TRUNC('month',
NOW())` test agrees with the month-truncated policy on valid calendar
dates). -/
theorem reconcile_due_policy_and_effect (u : User) (s : Store) (now : Timestamp)
    (hs : ∀ v ∈ s, 1 ≤ v.billingPeriodStart.day) :
    ((checkAndResetMonthlyUsage [u] u.id now).wasReset = true ↔
       tsLt (truncMonth u.billingPeriodStart) (truncMonth now) = true) ∧
    (tsLt (truncMonth u.billingPeriodStart) (truncMonth now) = true →
       checkAndResetMonthlyUsage [u] u.id now =
         ⟨true, some (resetRow now u), [resetRow now u]⟩) ∧
    (resetRow now u).usageCount = 0 ∧
    (resetRow now u).billingPeriodStart = truncMonth now ∧
    (resetRow now u).lastUsageReset = some now ∧
    (resetMonthlyUsage s none now).1 =
      s.map (fun v =>
        if tsLt (truncMonth v.billingPeriodStart) (truncMonth now) then
          resetRow now v
        else v) := by
  refine ⟨?_, ?_, rfl, rfl, rfl, ?_⟩
  · cases hd : tsLt (truncMonth u.billingPeriodStart) (truncMonth now) with
    | true =>
        rw [checkReset_single_due u now hd]
    | false =>
        rw [checkReset_single_current u now hd]
  · intro hd
    exact checkReset_single_due u now hd
  · simp only [resetMonthlyUsage, updateWhere]
    apply List.map_congr_left
    intro v hv
    simp only [tsLt_truncMonth_left v.billingPeriodStart now (hs v hv)]

/-- Closed instance of `reconcile_due_policy_and_effect` at a due account
(anchor in month 9, now in month 10), with a one-row table for the sweep. -/
theorem reconcile_due_policy_and_effect_witness :
    (checkAndResetMonthlyUsage [User.mk "u1" "free" 5 5 ⟨9, 1, 0⟩ none]
        (User.mk "u1" "free" 5 5 ⟨9, 1, 0⟩ none).id ⟨10, 2, 0⟩).wasReset = true ∧
    checkAndResetMonthlyUsage [User.mk "u1" "free" 5 5 ⟨9, 1, 0⟩ none]
        (User.mk "u1" "free" 5 5 ⟨9, 1, 0⟩ none).id ⟨10, 2, 0⟩ =
      ⟨true, some (resetRow ⟨10, 2, 0⟩ (User.mk "u1" "free" 5 5 ⟨9, 1, 0⟩ none)),
        [resetRow ⟨10, 2, 0⟩ (User.mk "u1" "free" 5 5 ⟨9, 1, 0⟩ none)]⟩ ∧
    (resetRow ⟨10, 2, 0⟩ (User.mk "u1" "free" 5 5 ⟨9, 1, 0⟩ none)).usageCount = 0 ∧
    (resetRow ⟨10, 2, 0⟩ (User.mk "u1" "free" 5 5 ⟨9, 1, 0⟩ none)).billingPeriodStart =
      truncMonth ⟨10, 2, 0⟩ ∧
    (resetRow ⟨10, 2, 0⟩ (User.mk "u1" "free" 5 5 ⟨9, 1, 0⟩ none)).lastUsageReset =
      some ⟨10, 2, 0⟩ ∧
    (resetMonthlyUsage [User.mk "u2" "pro" 100 7 ⟨9, 12, 30⟩ none] none ⟨10, 2, 0⟩).1 =
      [resetRow ⟨10, 2, 0⟩ (User.mk "u2" "pro" 100 7 ⟨9, 12, 30⟩ none)] :=
  have h := reconcile_due_policy_and_effect (User.mk "u1" "free" 5 5 ⟨9, 1, 0⟩ none)
    [User.mk "u2" "pro" 100 7 ⟨9, 12, 30⟩ none] ⟨10, 2, 0⟩ (by decide)
  ⟨h.1.mpr (by decide), h.2.1 (by decide), h.2.2.1, h.2.2.2.1, h.2.2.2.2.1,
    h.2.2.2.2.2.trans (by decide)⟩

/-- **C4**: reconcile is idempotent within a month — on an account whose
`billingPeriodStart` already lies in the current calendar month it changes
nothing and reports `wasReset = false`; and for any account, two
reconciliations in the same calendar month mutate state on at most the
first call (the second returns the store unchanged with
`wasReset = false`). -/
theorem reconcile_idempotent_within_month (u : User) (now now2 : Timestamp)
    (hsame : now2.month = now.month) :
    (u.billingPeriodStart.month = now.month →
       checkAndResetMonthlyUsage [u] u.id now = ⟨false, some u, [u]⟩) ∧
    (checkAndResetMonthlyUsage
        ((checkAndResetMonthlyUsage [u] u.id now).store) u.id now2).wasReset =
      false ∧
    (checkAndResetMonthlyUsage
        ((checkAndResetMonthlyUsage [u] u.id now).store) u.id now2).store =
      (checkAndResetMonthlyUsage [u] u.id now).store := by
  refine ⟨?_, ?_⟩
  · intro hcur
    apply checkReset_single_current
    rw [tsLt_truncMonth_both]
    simp [hcur]
  · cases hdue : tsLt (truncMonth u.billingPeriodStart) (truncMonth now) with
    | true =>
        rw [checkReset_single_due u now hdue]
        have hnd2 : tsLt (truncMonth (resetRow now u).billingPeriodStart)
            (truncMonth now2) = false := by
          rw [tsLt_truncMonth_both]
          simp [resetRow, truncMonth, hsame]
        have h2 := checkReset_single_current (resetRow now u) now2 hnd2
        rw [resetRow_id] at h2
        simp only [h2]
        trivial
    | false =>
        rw [checkReset_single_current u now hdue]
        have hnd2 : tsLt (truncMonth u.billingPeriodStart) (truncMonth now2) = false := by
          rw [tsLt_truncMonth_both] at hdue ⊢
          simp only [decide_eq_false_iff_not] at hdue ⊢
          omega
        have h2 := checkReset_single_current u now2 hnd2
        simp only [h2]
        trivial

/-- Closed instance of `reconcile_idempotent_within_month`: an
already-current account (anchor month 10) reconciled twice in month 10. -/
theorem reconcile_idempotent_within_month_witness :
    checkAndResetMonthlyUsage [User.mk "u1" "free" 5 5 ⟨10, 1, 0⟩ none]
        (User.mk "u1" "free" 5 5 ⟨10, 1, 0⟩ none).id ⟨10, 5, 0⟩ =
      ⟨false, some (User.mk "u1" "free" 5 5 ⟨10, 1, 0⟩ none),
        [User.mk "u1" "free" 5 5 ⟨10, 1, 0⟩ none]⟩ ∧
    (checkAndResetMonthlyUsage
        ((checkAndResetMonthlyUsage [User.mk "u1" "free" 5 5 ⟨10, 1, 0⟩ none]
           (User.mk "u1" "free" 5 5 ⟨10, 1, 0⟩ none).id ⟨10, 5, 0⟩).store)
        (User.mk "u1" "free" 5 5 ⟨10, 1, 0⟩ none).id ⟨10, 20, 0⟩).wasReset = false ∧
    (checkAndResetMonthlyUsage
        ((checkAndResetMonthlyUsage [User.mk "u1" "free" 5 5 ⟨10, 1, 0⟩ none]
           (User.mk "u1" "free" 5 5 ⟨10, 1, 0⟩ none).id ⟨10, 5, 0⟩).store)
        (User.mk "u1" "free" 5 5 ⟨10, 1, 0⟩ none).id ⟨10, 20, 0⟩).store =
      (checkAndResetMonthlyUsage [User.mk "u1" "free" 5 5 ⟨10, 1, 0⟩ none]
        (User.mk "u1" "free" 5 5 ⟨10, 1, 0⟩ none).id ⟨10, 5, 0⟩).store :=
  have h := reconcile_idempotent_within_month
    (User.mk "u1" "free" 5 5 ⟨10, 1, 0⟩ none) ⟨10, 5, 0⟩ ⟨10, 20, 0⟩ (by decide)
  ⟨h.1 (by decide), h.2.1, h.2.2⟩

/-- **C5** (counterexample): an account one month past its boundary
(`billingPeriodStart` in month 9, now month 10) still reports its stale
`usageCount = 5` on the very first `getUsage` — the read path performs no
reconciliation, refuting "the first getUsage after the period boundary
reports usageCount = 0". -/
theorem getUsage_stale_after_boundary_cex :
    tsLt (truncMonth (User.mk "u1" "free" 5 5 ⟨9, 1, 0⟩ none).billingPeriodStart)
      (truncMonth ⟨10, 2, 0⟩) = true ∧
    getUsage [User.mk "u1" "free" 5 5 ⟨9, 1, 0⟩ none] "u1" =
      UsageView.usageData 5 5 "free" 100 ∧
    (5 : Int) ≠ 0 := by
  refine ⟨rfl, rfl, by decide⟩

/-- **C5** (amended): lazy reconciliation runs before the quota
check/increment (a due account's `incrementUsageCount` always reports
`wasReset = true`), but not before usage reads: `getUsage` returns the
stored, stale `usageCount` unchanged. -/
theorem lazy_reconcile_before_increment_not_before_read (u : User)
    (now : Timestamp)
    (hdue : tsLt (truncMonth u.billingPeriodStart) (truncMonth now) = true) :
    getUsage [u] u.id =
      UsageView.usageData u.usageCount u.monthlyLimit u.subscriptionTier
        (usagePercentage u.usageCount u.monthlyLimit) ∧
    (incrementUsageCount [u] u.id now).wasReset = some true := by
  constructor
  · simp [getUsage, findById]
  · rw [incr_single_due u now hdue]
    by_cases hc : incrCond (resetRow now u) <;> simp [hc]

/-- Closed instance of `lazy_reconcile_before_increment_not_before_read` at
a due account. -/
theorem lazy_reconcile_before_increment_not_before_read_witness :
    tsLt (truncMonth (User.mk "u3" "free" 5 4 ⟨8, 3, 7⟩ none).billingPeriodStart)
      (truncMonth ⟨10, 2, 0⟩) = true ∧
    (getUsage [User.mk "u3" "free" 5 4 ⟨8, 3, 7⟩ none]
        (User.mk "u3" "free" 5 4 ⟨8, 3, 7⟩ none).id =
      UsageView.usageData (User.mk "u3" "free" 5 4 ⟨8, 3, 7⟩ none).usageCount
        (User.mk "u3" "free" 5 4 ⟨8, 3, 7⟩ none).monthlyLimit
        (User.mk "u3" "free" 5 4 ⟨8, 3, 7⟩ none).subscriptionTier
        (usagePercentage (User.mk "u3" "free" 5 4 ⟨8, 3, 7⟩ none).usageCount
          (User.mk "u3" "free" 5 4 ⟨8, 3, 7⟩ none).monthlyLimit) ∧
     (incrementUsageCount [User.mk "u3" "free" 5 4 ⟨8, 3, 7⟩ none]
        (User.mk "u3" "free" 5 4 ⟨8, 3, 7⟩ none).id ⟨10, 2, 0⟩).wasReset =
       some true) :=
  ⟨by decide, lazy_reconcile_before_increment_not_before_read
    (User.mk "u3" "free" 5 4 ⟨8, 3, 7⟩ none) ⟨10, 2, 0⟩ (by decide)⟩

/-- **C6**: an `enterprise`-tier account is admitted and incremented for
every numeric `monthlyLimit` and `usageCount`; the stored enterprise limit
is −1, so the `usage_count < monthly_limit` disjunct alone would always
reject a non-negative counter — only the tier disjunct admits. -/
theorem unmetered_bypass (u : User) (now : Timestamp)
    (he : u.subscriptionTier = "enterprise") :
    (incrementUsageCount [u] u.id now).canIncrement = true ∧
    (incrementUsageCount [u] u.id now).store = [incrRow (preUpdateUser u now)] ∧
    (incrRow (preUpdateUser u now)).usageCount =
      (preUpdateUser u now).usageCount + 1 ∧
    getMonthlyLimit "enterprise" = -1 ∧
    (∀ c : Int, 0 ≤ c → ¬ (c < getMonthlyLimit "enterprise")) := by
  refine ⟨?_, ?_, incrRow_usage _, rfl, ?_⟩
  · cases hdue : tsLt (truncMonth u.billingPeriodStart) (truncMonth now) with
    | false => rw [incr_single_enterprise u now he hdue]
    | true =>
        have hc : incrCond (resetRow now u) = true := by
          simp [incrCond, resetRow_tier, he]
        rw [incr_single_due u now hdue, if_pos hc]
  · unfold preUpdateUser
    cases hdue : tsLt (truncMonth u.billingPeriodStart) (truncMonth now) with
    | false =>
        rw [incr_single_enterprise u now he hdue]
        simp
    | true =>
        have hc : incrCond (resetRow now u) = true := by
          simp [incrCond, resetRow_tier, he]
        rw [incr_single_due u now hdue, if_pos hc]
        simp
  · intro c hc
    have hlim : getMonthlyLimit "enterprise" = -1 := rfl
    rw [hlim]
    omega

/-- Closed instance of `unmetered_bypass` at an enterprise account with
`monthlyLimit = -1` and a large counter. -/
theorem unmetered_bypass_witness :
    (incrementUsageCount [User.mk "e1" "enterprise" (-1) 1000 ⟨10, 1, 0⟩ none]
        (User.mk "e1" "enterprise" (-1) 1000 ⟨10, 1, 0⟩ none).id ⟨10, 20, 0⟩).canIncrement =
      true ∧
    (incrementUsageCount [User.mk "e1" "enterprise" (-1) 1000 ⟨10, 1, 0⟩ none]
        (User.mk "e1" "enterprise" (-1) 1000 ⟨10, 1, 0⟩ none).id ⟨10, 20, 0⟩).store =
      [incrRow (preUpdateUser (User.mk "e1" "enterprise" (-1) 1000 ⟨10, 1, 0⟩ none)
        ⟨10, 20, 0⟩)] ∧
    (incrRow (preUpdateUser (User.mk "e1" "enterprise" (-1) 1000 ⟨10, 1, 0⟩ none)
        ⟨10, 20, 0⟩)).usageCount =
      (preUpdateUser (User.mk "e1" "enterprise" (-1) 1000 ⟨10, 1, 0⟩ none)
        ⟨10, 20, 0⟩).usageCount + 1 ∧
    getMonthlyLimit "enterprise" = -1 ∧
    ¬ ((1000 : Int) < getMonthlyLimit "enterprise") :=
  have h := unmetered_bypass (User.mk "e1" "enterprise" (-1) 1000 ⟨10, 1, 0⟩ none)
    ⟨10, 20, 0⟩ rfl
  ⟨h.1, h.2.1, h.2.2.1, h.2.2.2.1, h.2.2.2.2 1000 (by decide)⟩

lemma dedupeGate_none (m : DedupeMap) (uid : String) (nowMs : Nat)
    (hg : mapGet m uid = none) :
    dedupeGate m uid nowMs = (true, mapCleanup (mapSet m uid nowMs) nowMs) := by
  simp [dedupeGate, hg]

lemma dedupeGate_recent (m : DedupeMap) (uid : String) (nowMs last : Nat)
    (hg : mapGet m uid = some last)
    (hlt : (nowMs : Int) - (last : Int) < (REQUEST_DEDUPE_WINDOW : Int)) :
    dedupeGate m uid nowMs = (false, m) := by
  simp [dedupeGate, hg, hlt]

lemma dedupeGate_stale (m : DedupeMap) (uid : String) (nowMs last : Nat)
    (hg : mapGet m uid = some last)
    (hge : ¬ (nowMs : Int) - (last : Int) < (REQUEST_DEDUPE_WINDOW : Int)) :
    dedupeGate m uid nowMs = (true, mapCleanup (mapSet m uid nowMs) nowMs) := by
  simp [dedupeGate, hg, hge]

lemma mapGet_cleanup_set_self (m : DedupeMap) (uid : String) (nowMs : Nat) :
    mapGet (mapCleanup (mapSet m uid nowMs) nowMs) uid = some nowMs := by
  have h1 : mapSet m uid nowMs uid = some nowMs := by
    simp [mapSet]
  simp only [mapGet, mapCleanup, h1]
  have h2 : ¬ ((nowMs : Int) - (nowMs : Int) > (REQUEST_DEDUPE_WINDOW : Int) * 2) := by
    simp [REQUEST_DEDUPE_WINDOW]
  simp [h2]

/-- **C7**: an `incrementUsage` request is suppressed exactly when a stored
last-attempt timestamp exists with `now - lastAttempt <
REQUEST_DEDUPE_WINDOW`; suppression is decided before and independently of
the underlying increment (the controller answers `tooFrequent` for every
store); an admitted call records `now` as the new last-attempt; and a
second call at least the window after an admitted one is admitted again
(both reach the service increment). -/
theorem duplicate_suppression_window (m : DedupeMap) (s : Store) (uid : String)
    (nowMs : Nat) (now : Timestamp) (t2 : Nat) :
    ((dedupeGate m uid nowMs).1 = false ↔
       ∃ last, mapGet m uid = some last ∧
         (nowMs : Int) - (last : Int) < (REQUEST_DEDUPE_WINDOW : Int)) ∧
    ((dedupeGate m uid nowMs).1 = false →
       (controllerIncrementUsage m s uid nowMs now).1 = IncResponse.tooFrequent) ∧
    ((dedupeGate m uid nowMs).1 = true →
       (controllerIncrementUsage m s uid nowMs now).1 ≠ IncResponse.tooFrequent) ∧
    ((dedupeGate m uid nowMs).1 = true →
       mapGet (dedupeGate m uid nowMs).2 uid = some nowMs) ∧
    ((dedupeGate m uid nowMs).1 = true →
       (t2 : Int) - (nowMs : Int) ≥ (REQUEST_DEDUPE_WINDOW : Int) →
       (dedupeGate (dedupeGate m uid nowMs).2 uid t2).1 = true) := by
  have hmain : ∀ h : (dedupeGate m uid nowMs).1 = true,
      (dedupeGate m uid nowMs).2 = mapCleanup (mapSet m uid nowMs) nowMs := by
    intro h
    rcases hg : mapGet m uid with _ | last
    · rw [dedupeGate_none m uid nowMs hg]
    · by_cases hlt : (nowMs : Int) - (last : Int) < (REQUEST_DEDUPE_WINDOW : Int)
      · rw [dedupeGate_recent m uid nowMs last hg hlt] at h
        simp at h
      · rw [dedupeGate_stale m uid nowMs last hg hlt]
  refine ⟨?_, ?_, ?_, ?_, ?_⟩
  · constructor
    · intro h
      rcases hg : mapGet m uid with _ | last
      · rw [dedupeGate_none m uid nowMs hg] at h
        simp at h
      · by_cases hlt : (nowMs : Int) - (last : Int) < (REQUEST_DEDUPE_WINDOW : Int)
        · exact ⟨last, rfl, hlt⟩
        · rw [dedupeGate_stale m uid nowMs last hg hlt] at h
          simp at h
    · rintro ⟨last, hg, hlt⟩
      rw [dedupeGate_recent m uid nowMs last hg hlt]
  · intro h
    simp [controllerIncrementUsage, h]
  · intro h
    simp only [controllerIncrementUsage, h, if_true]
    split
    · split <;> simp
    · split <;> simp
  · intro h
    rw [hmain h]
    exact mapGet_cleanup_set_self m uid nowMs
  · intro h hgap
    rw [hmain h]
    rw [dedupeGate_stale _ uid t2 nowMs (mapGet_cleanup_set_self m uid nowMs)
      (by omega)]

/-- Closed instance of `duplicate_suppression_window`: an empty cache, a
first call at t=1000 admitted and recorded, and a second at t=10000 (≥ 5 s
later) admitted again. -/
theorem duplicate_suppression_window_witness :
    (dedupeGate emptyDedupe "u1" 1000).1 = true ∧
    (controllerIncrementUsage emptyDedupe [] "u1" 1000 ⟨10, 2, 0⟩).1 ≠
      IncResponse.tooFrequent ∧
    mapGet (dedupeGate emptyDedupe "u1" 1000).2 "u1" = some 1000 ∧
    (dedupeGate (dedupeGate emptyDedupe "u1" 1000).2 "u1" 10000).1 = true :=
  have h := duplicate_suppression_window emptyDedupe [] "u1" 1000 ⟨10, 2, 0⟩ 10000
  have hadm : (dedupeGate emptyDedupe "u1" 1000).1 = true := rfl
  ⟨hadm, h.2.2.1 hadm, h.2.2.2.1 hadm, h.2.2.2.2 hadm (by decide)⟩

/-- **C8** (counterexample): a due metered account with a non-positive
stored limit (tier "free", `monthly_limit = 0`, anchor month 9, now month
10) is rejected by `incrementUsageCount`, yet the call has mutated the row:
the pre-check reconciliation reset it. This refutes "every rejected
tryIncrement leaves account state unchanged". -/
theorem rejected_increment_mutates_on_reset_cex :
    (incrementUsageCount [User.mk "u1" "free" 0 3 ⟨9, 1, 0⟩ none]
        (User.mk "u1" "free" 0 3 ⟨9, 1, 0⟩ none).id ⟨10, 2, 0⟩).canIncrement =
      false ∧
    (incrementUsageCount [User.mk "u1" "free" 0 3 ⟨9, 1, 0⟩ none]
        (User.mk "u1" "free" 0 3 ⟨9, 1, 0⟩ none).id ⟨10, 2, 0⟩).store ≠
      [User.mk "u1" "free" 0 3 ⟨9, 1, 0⟩ none] := by
  exact ⟨rfl, by decide⟩

/-- **C8** (amended): a rejected increment performs no write beyond the
billing-period reset of the pre-check reconciliation — a nonexistent id
fails with the 'User not found' error and an untouched store; a
quota-rejected call leaves the store at exactly the reconciled row and
reports that row's current `usageCount`/`monthlyLimit` in the failure; in
particular, when the account's billing period is current, a rejected call
leaves the store fully unchanged. -/
theorem rejection_paths_write_nothing_beyond_reset (u : User) (now : Timestamp)
    (uid : String) (hne : u.id ≠ uid) :
    incrementUsageCount [u] uid now =
      ⟨none, false, some IncError.userNotFound, none, [u]⟩ ∧
    IncError.message IncError.userNotFound = "User not found" ∧
    ((incrementUsageCount [u] u.id now).canIncrement = false →
       (incrementUsageCount [u] u.id now).store = [preUpdateUser u now] ∧
       (incrementUsageCount [u] u.id now).error =
         some (IncError.usageLimitExceeded (preUpdateUser u now).usageCount
           (preUpdateUser u now).monthlyLimit) ∧
       (incrementUsageCount [u] u.id now).user = some (preUpdateUser u now)) ∧
    (tsLt (truncMonth u.billingPeriodStart) (truncMonth now) = false →
       (incrementUsageCount [u] u.id now).canIncrement = false →
       (incrementUsageCount [u] u.id now).store = [u]) := by
  have hnotfound : incrementUsageCount [u] uid now =
      ⟨none, false, some IncError.userNotFound, none, [u]⟩ := by
    simp [incrementUsageCount, checkAndResetMonthlyUsage, findById, hne]
  have hquota : (incrementUsageCount [u] u.id now).canIncrement = false →
      (incrementUsageCount [u] u.id now).store = [preUpdateUser u now] ∧
      (incrementUsageCount [u] u.id now).error =
        some (IncError.usageLimitExceeded (preUpdateUser u now).usageCount
          (preUpdateUser u now).monthlyLimit) ∧
      (incrementUsageCount [u] u.id now).user = some (preUpdateUser u now) := by
    intro hrej
    unfold preUpdateUser
    by_cases he : u.subscriptionTier = "enterprise"
    · cases hdue : tsLt (truncMonth u.billingPeriodStart) (truncMonth now) with
      | false =>
          rw [incr_single_enterprise u now he hdue] at hrej
          simp at hrej
      | true =>
          have hc : incrCond (resetRow now u) = true := by
            simp [incrCond, resetRow_tier, he]
          rw [incr_single_due u now hdue, if_pos hc] at hrej
          simp at hrej
    · cases hdue : tsLt (truncMonth u.billingPeriodStart) (truncMonth now) with
      | false =>
          rw [incr_single_metered u now he hdue] at hrej ⊢
          by_cases hlt : u.usageCount < u.monthlyLimit
          · rw [if_pos hlt] at hrej
            simp at hrej
          · rw [if_neg hlt]
            simp
      | true =>
          have hnc : ¬ incrCond (resetRow now u) = true := by
            intro hc
            rw [incr_single_due u now hdue, if_pos hc] at hrej
            simp at hrej
          rw [incr_single_due u now hdue, if_neg hnc] at hrej ⊢
          have h0 : (resetRow now u).usageCount = 0 := rfl
          have hl : (resetRow now u).monthlyLimit = u.monthlyLimit := rfl
          simp [h0, hl]
  refine ⟨hnotfound, rfl, hquota, ?_⟩
  · intro hnd hrej
    have h := (hquota hrej).1
    rw [h]
    unfold preUpdateUser
    rw [hnd]
    simp

/-- Closed instance of `rejection_paths_write_nothing_beyond_reset`: a
full free-tier account (5 of 5) inside its month; the increment is
rejected with the current payload and the store is unchanged, and a lookup
of an absent id "u2" mutates nothing. -/
theorem rejection_paths_write_nothing_beyond_reset_witness :
    incrementUsageCount [User.mk "u1" "free" 5 5 ⟨10, 1, 0⟩ none] "u2" ⟨10, 5, 0⟩ =
      ⟨none, false, some IncError.userNotFound, none,
        [User.mk "u1" "free" 5 5 ⟨10, 1, 0⟩ none]⟩ ∧
    IncError.message IncError.userNotFound = "User not found" ∧
    (incrementUsageCount [User.mk "u1" "free" 5 5 ⟨10, 1, 0⟩ none]
        (User.mk "u1" "free" 5 5 ⟨10, 1, 0⟩ none).id ⟨10, 5, 0⟩).store =
      [preUpdateUser (User.mk "u1" "free" 5 5 ⟨10, 1, 0⟩ none) ⟨10, 5, 0⟩] ∧
    (incrementUsageCount [User.mk "u1" "free" 5 5 ⟨10, 1, 0⟩ none]
        (User.mk "u1" "free" 5 5 ⟨10, 1, 0⟩ none).id ⟨10, 5, 0⟩).error =
      some (IncError.usageLimitExceeded
        (preUpdateUser (User.mk "u1" "free" 5 5 ⟨10, 1, 0⟩ none) ⟨10, 5, 0⟩).usageCount
        (preUpdateUser (User.mk "u1" "free" 5 5 ⟨10, 1, 0⟩ none) ⟨10, 5, 0⟩).monthlyLimit) ∧
    (incrementUsageCount [User.mk "u1" "free" 5 5 ⟨10, 1, 0⟩ none]
        (User.mk "u1" "free" 5 5 ⟨10, 1, 0⟩ none).id ⟨10, 5, 0⟩).store =
      [User.mk "u1" "free" 5 5 ⟨10, 1, 0⟩ none] :=
  have h := rejection_paths_write_nothing_beyond_reset
    (User.mk "u1" "free" 5 5 ⟨10, 1, 0⟩ none) ⟨10, 5, 0⟩ "u2" (by decide)
  ⟨h.1, h.2.1, (h.2.2.1 rfl).1, (h.2.2.1 rfl).2.1, h.2.2.2 rfl rfl⟩

/-- **C9** (counterexample): a scheduler firing on the 5th of month 10 with
a due account (anchor month 9, `usageCount = 5`) performs no reset at all —
`performMonthlyReset` returns before sweeping unless the calendar day is
the 1st, refuting "every firing resets all due accounts regardless of the
date on which it fires". -/
theorem sweep_skips_non_first_day_cex :
    tsLt (truncMonth (User.mk "u1" "free" 5 5 ⟨9, 1, 0⟩ none).billingPeriodStart)
      (truncMonth ⟨10, 5, 0⟩) = true ∧
    performMonthlyReset [User.mk "u1" "free" 5 5 ⟨9, 1, 0⟩ none] ⟨10, 5, 0⟩ =
      ([User.mk "u1" "free" 5 5 ⟨9, 1, 0⟩ none], none) := by
  exact ⟨rfl, rfl⟩

/-- **C9** (amended): the scheduler fires once immediately on start and
then every 24 hours, but each firing performs the reset pass only when the
calendar day is the 1st: on any other day `performMonthlyReset` leaves the
store untouched, and on the 1st it resets, in one pass, exactly the
accounts whose billing period has ended. -/
theorem sweep_resets_only_on_first_day (s : Store) (now : Timestamp)
    (startMs k : Nat) (hs : ∀ v ∈ s, 1 ≤ v.billingPeriodStart.day) :
    fireTime startMs 0 = startMs ∧
    fireTime startMs (k + 1) = fireTime startMs k + monthlyResetIntervalMs ∧
    (now.day ≠ 1 → performMonthlyReset s now = (s, none)) ∧
    (now.day = 1 →
       (performMonthlyReset s now).1 =
         s.map (fun v =>
           if tsLt (truncMonth v.billingPeriodStart) (truncMonth now) then
             resetRow now v
           else v)) := by
  refine ⟨by simp [fireTime], by simp [fireTime]; ring, ?_, ?_⟩
  · intro hday
    simp [performMonthlyReset, hday]
  · intro hday
    simp only [performMonthlyReset, hday, ne_eq, not_true_eq_false, if_false,
      resetMonthlyUsage, updateWhere]
    apply List.map_congr_left
    intro v hv
    simp only [tsLt_truncMonth_left v.billingPeriodStart now (hs v hv)]

/-- Closed instance of `sweep_resets_only_on_first_day`: a firing on day 5
of month 10 is a no-op; a firing on the 1st resets the due row. -/
theorem sweep_resets_only_on_first_day_witness :
    fireTime 500 0 = 500 ∧
    fireTime 500 3 = fireTime 500 2 + monthlyResetIntervalMs ∧
    performMonthlyReset [User.mk "u2" "pro" 100 7 ⟨9, 12, 30⟩ none] ⟨10, 5, 0⟩ =
      ([User.mk "u2" "pro" 100 7 ⟨9, 12, 30⟩ none], none) ∧
    (performMonthlyReset [User.mk "u2" "pro" 100 7 ⟨9, 12, 30⟩ none] ⟨10, 1, 0⟩).1 =
      [resetRow ⟨10, 1, 0⟩ (User.mk "u2" "pro" 100 7 ⟨9, 12, 30⟩ none)] :=
  have h5 := sweep_resets_only_on_first_day
    [User.mk "u2" "pro" 100 7 ⟨9, 12, 30⟩ none] ⟨10, 5, 0⟩ 500 2 (by decide)
  have h1 := sweep_resets_only_on_first_day
    [User.mk "u2" "pro" 100 7 ⟨9, 12, 30⟩ none] ⟨10, 1, 0⟩ 500 2 (by decide)
  ⟨h5.1, h5.2.1, h5.2.2.1 (by decide), (h1.2.2.2 rfl).trans (by decide)⟩

/-- **C10**: a suppressed duplicate attempt does not refresh the stored
last-attempt timestamp — the rejected branch returns the cache unchanged —
so the window is always measured from the most recent admitted attempt,
and an attempt made at least `REQUEST_DEDUPE_WINDOW` after that admitted
attempt is admitted no matter how many rejections happened in between. -/
theorem suppressed_attempt_not_refresh_window (m : DedupeMap) (uid : String)
    (t nowMs : Nat) :
    ((dedupeGate m uid nowMs).1 = false → (dedupeGate m uid nowMs).2 = m) ∧
    (mapGet m uid = some t →
      (nowMs : Int) - (t : Int) ≥ (REQUEST_DEDUPE_WINDOW : Int) →
      (dedupeGate m uid nowMs).1 = true) := by
  constructor
  · intro h
    rcases hg : mapGet m uid with _ | last
    · rw [dedupeGate_none m uid nowMs hg] at h
      simp at h
    · by_cases hlt : (nowMs : Int) - (last : Int) < (REQUEST_DEDUPE_WINDOW : Int)
      · rw [dedupeGate_recent m uid nowMs last hg hlt]
      · rw [dedupeGate_stale m uid nowMs last hg hlt] at h
        simp at h
  · intro hg hgap
    rw [dedupeGate_stale m uid nowMs t hg (by omega)]

/-- Closed instance of `suppressed_attempt_not_refresh_window`: last
admitted attempt at t=1000; a retry at t=2000 is rejected and leaves the
cache unchanged, and a retry at t=7000 (≥ 5 s after 1000) is admitted. -/
theorem suppressed_attempt_not_refresh_window_witness :
    (dedupeGate (mapSet emptyDedupe "u1" 1000) "u1" 2000).1 = false ∧
    (dedupeGate (mapSet emptyDedupe "u1" 1000) "u1" 2000).2 =
      mapSet emptyDedupe "u1" 1000 ∧
    (dedupeGate (mapSet emptyDedupe "u1" 1000) "u1" 7000).1 = true :=
  have h2 := suppressed_attempt_not_refresh_window
    (mapSet emptyDedupe "u1" 1000) "u1" 1000 2000
  have h7 := suppressed_attempt_not_refresh_window
    (mapSet emptyDedupe "u1" 1000) "u1" 1000 7000
  ⟨rfl, h2.1 rfl, h7.2 rfl (by decide)⟩
